import Mathlib

/-!
# PuzzleCraft-AI — piece partitioning, edge assignment and shape synthesis

Shallow embedding of the jigsaw-piece engine of the PuzzleCraft-AI
repository, together with proofs of the testable properties stated in its
design specification.

The embedded code comes from:
* `frontend/web/src/components/PuzzleGame/PuzzleGameBoard.tsx`
  (`isEdgeCompatible`, `checkEdgeCompatibility`, `canConnect`,
  `generatePuzzleShape`),
* `frontend/web/src/hooks/usePuzzleGame.ts` (`loadPuzzle` piece mapping and
  validation),
* `frontend/web/src/types/puzzle.ts` (`PuzzlePiece.edges` vocabulary),
* the `backend/segmentation-service/segmentation.py` excerpts reproduced in
  the repository's fix-summary documents (adjacency-based edge assignment,
  post-assignment verification, and piece size recalculation).

Coordinates and pixel positions are modelled with exact rationals `ℚ`;
the JavaScript / Python numbers appearing in the embedded fragments are
small enough that exact arithmetic agrees with the source's floating-point
evaluation at every input used below.
-/

namespace PuzzleCraft

/-! ## Edge records

The source stores the four edge types of a piece as plain strings
(`'flat' | 'tab' | 'blank'` coming from the backend, `'flat' | 'knob' |
'hole'` in the declared TypeScript type).  We keep strings, exactly as the
code compares them. -/

/-- The per-piece edge record `{top, right, bottom, left}`. -/
structure Edges where
  top : String
  right : String
  bottom : String
  left : String
deriving DecidableEq, Repr

/-- The all-`flat` edge record used as the default whenever edge data is
absent (`usePuzzleGame.ts` line 122, `PuzzleGameBoard.tsx` line 375). -/
def allFlat : Edges := ⟨"flat", "flat", "flat", "flat"⟩

/-- `isEdgeCompatible` from `PuzzleGameBoard.tsx` (lines 618–621):

```ts
const isEdgeCompatible = (edge1: string, edge2: string): boolean => {
  if (edge1 === 'flat' || edge2 === 'flat') return false
  return (edge1 === 'tab' && edge2 === 'blank') || (edge1 === 'blank' && edge2 === 'tab')
}
``` -/
def isEdgeCompatible (edge1 edge2 : String) : Bool :=
  if edge1 == "flat" || edge2 == "flat" then false
  else (edge1 == "tab" && edge2 == "blank") || (edge1 == "blank" && edge2 == "tab")

/-- The edge-type vocabulary declared for `PuzzlePiece.edges` in
`types/puzzle.ts` (lines 17–22): `'flat' | 'knob' | 'hole'`. -/
def declaredEdgeTypes : List String := ["flat", "knob", "hole"]

/-! ## Shape synthesis (`generatePuzzleShape`, `PuzzleGameBoard.tsx` 369–494)

The function walks the four sides of the `width × height` base rectangle
clockwise from the top-left corner `(0,0)`, pushing the corner vertices and,
on each non-flat side, the four vertices of a rectangular bump.  `tab` /
`knob` produce an outward bump of depth `tabDepth = 0.15` times the
perpendicular dimension, `blank` / `hole` an inward bite of the same size;
the bump spans the 30%–70% stretch of the side.  (The source also declares
`const tabSize = 0.25`, which is never used.)  We split the four
conditional blocks into one definition per side, appended in source
order. -/

/-- The vertices pushed for the top edge (source lines 389–410). -/
def topSeg (width height : ℚ) (e : Edges) : List (ℚ × ℚ) :=
  if e.top == "tab" || e.top == "knob" then
    [(width * (3/10), 0), (width * (3/10), -(height * (15/100))),
     (width * (7/10), -(height * (15/100))), (width * (7/10), 0)]
  else if e.top == "blank" || e.top == "hole" then
    [(width * (3/10), 0), (width * (3/10), height * (15/100)),
     (width * (7/10), height * (15/100)), (width * (7/10), 0)]
  else []

/-- The vertices pushed for the right edge (source lines 417–437). -/
def rightSeg (width height : ℚ) (e : Edges) : List (ℚ × ℚ) :=
  if e.right == "tab" || e.right == "knob" then
    [(width, height * (3/10)), (width + width * (15/100), height * (3/10)),
     (width + width * (15/100), height * (7/10)), (width, height * (7/10))]
  else if e.right == "blank" || e.right == "hole" then
    [(width, height * (3/10)), (width - width * (15/100), height * (3/10)),
     (width - width * (15/100), height * (7/10)), (width, height * (7/10))]
  else []

/-- The vertices pushed for the bottom edge (source lines 444–464); the
bump runs right-to-left (`tabStart = width * 0.7`). -/
def bottomSeg (width height : ℚ) (e : Edges) : List (ℚ × ℚ) :=
  if e.bottom == "tab" || e.bottom == "knob" then
    [(width * (7/10), height), (width * (7/10), height + height * (15/100)),
     (width * (3/10), height + height * (15/100)), (width * (3/10), height)]
  else if e.bottom == "blank" || e.bottom == "hole" then
    [(width * (7/10), height), (width * (7/10), height - height * (15/100)),
     (width * (3/10), height - height * (15/100)), (width * (3/10), height)]
  else []

/-- The vertices pushed for the left edge (source lines 471–491). -/
def leftSeg (width height : ℚ) (e : Edges) : List (ℚ × ℚ) :=
  if e.left == "tab" || e.left == "knob" then
    [(0, height * (7/10)), (-(width * (15/100)), height * (7/10)),
     (-(width * (15/100)), height * (3/10)), (0, height * (3/10))]
  else if e.left == "blank" || e.left == "hole" then
    [(0, height * (7/10)), (width * (15/100), height * (7/10)),
     (width * (15/100), height * (3/10)), (0, height * (3/10))]
  else []

/-- `generatePuzzleShape` from `PuzzleGameBoard.tsx` (lines 369–494).
A missing `edges` argument defaults every side to `'flat'`
(`safeEdges`, lines 375–380).  The returned list is the outline's vertex
sequence: top-left corner, top bump, top-right corner, right bump,
bottom-right corner, bottom bump, bottom-left corner, left bump. -/
def generatePuzzleShape (width height : ℚ) (edges : Option Edges) :
    List (ℚ × ℚ) :=
  let safeEdges := edges.getD allFlat
  [((0 : ℚ), (0 : ℚ))] ++ topSeg width height safeEdges ++
    [(width, (0 : ℚ))] ++ rightSeg width height safeEdges ++
    [(width, height)] ++ bottomSeg width height safeEdges ++
    [((0 : ℚ), height)] ++ leftSeg width height safeEdges

/-! The per-side growth of the final bounding box in the frontend geometry:
a `tab`/`knob` side grows the box by `tabDepth` times the perpendicular
dimension of the bump on that side, any other side contributes nothing.
These are the frontend analogues of the spec's `edgeOffsets`. -/

/-- Growth of the box past the left edge of the base rectangle. -/
def offLeft (width : ℚ) (e : Edges) : ℚ :=
  if e.left == "tab" || e.left == "knob" then width * (15/100) else 0

/-- Growth of the box past the right edge of the base rectangle. -/
def offRight (width : ℚ) (e : Edges) : ℚ :=
  if e.right == "tab" || e.right == "knob" then width * (15/100) else 0

/-- Growth of the box past the top edge of the base rectangle. -/
def offTop (height : ℚ) (e : Edges) : ℚ :=
  if e.top == "tab" || e.top == "knob" then height * (15/100) else 0

/-- Growth of the box past the bottom edge of the base rectangle. -/
def offBottom (height : ℚ) (e : Edges) : ℚ :=
  if e.bottom == "tab" || e.bottom == "knob" then height * (15/100) else 0

/-! ## Piece connection (`canConnect` / `checkEdgeCompatibility`,
`PuzzleGameBoard.tsx` 548–615) -/

/-- The geometry of a runtime puzzle piece, as used by the connection
logic.  `edges` is optional because `canConnect` explicitly tests
`piece1.edges && piece2.edges` before using it. -/
structure Piece where
  currentPosition : ℚ × ℚ
  width : ℚ
  height : ℚ
  edges : Option Edges

/-- `checkEdgeCompatibility` (source lines 582–615): determines on which
side the two pieces face each other (within a 20 px tolerance) and tests
the corresponding pair of edge types.  The source reads
`piece1.edges`/`piece2.edges` directly; the unwrapped records are passed
here as `e1`, `e2` by `canConnect`. -/
def checkEdgeCompatibility (p1 p2 : Piece) (e1 e2 : Edges) : Bool :=
  let deltaX := p2.currentPosition.1 - p1.currentPosition.1
  let deltaY := p2.currentPosition.2 - p1.currentPosition.2
  if |deltaX - p1.width| < 20 ∧ |deltaY| < 20 then
    isEdgeCompatible e1.right e2.left
  else if |deltaX + p2.width| < 20 ∧ |deltaY| < 20 then
    isEdgeCompatible e1.left e2.right
  else if |deltaY - p1.height| < 20 ∧ |deltaX| < 20 then
    isEdgeCompatible e1.bottom e2.top
  else if |deltaY + p2.height| < 20 ∧ |deltaX| < 20 then
    isEdgeCompatible e1.top e2.bottom
  else false

/-- `canConnect` (source lines 548–579).  The source computes
`distance = sqrt(dx² + dy²)` and returns `false` when `distance > 50`;
in exact arithmetic that comparison is equivalent to `dx² + dy² > 2500`,
which is how it is written here (ℚ has no square root).  When either
piece lacks edge data the source falls back to a grid-index heuristic
parsed out of the piece ids; that branch is irrelevant to every claim
below and is abstracted as the `gridFallback` argument. -/
def canConnect (p1 p2 : Piece) (gridFallback : Bool) : Bool :=
  let distSq := (p1.currentPosition.1 - p2.currentPosition.1) ^ 2 +
      (p1.currentPosition.2 - p2.currentPosition.2) ^ 2
  if distSq > 2500 then false
  else
    match p1.edges, p2.edges with
    | some e1, some e2 => checkEdgeCompatibility p1 p2 e1 e2
    | _, _ => gridFallback

/-- An edge record drawn entirely from the vocabulary declared by the
`PuzzlePiece` TypeScript type. -/
def usesDeclaredVocab (e : Edges) : Prop :=
  e.top ∈ declaredEdgeTypes ∧ e.right ∈ declaredEdgeTypes ∧
  e.bottom ∈ declaredEdgeTypes ∧ e.left ∈ declaredEdgeTypes

instance (e : Edges) : Decidable (usesDeclaredVocab e) := by
  unfold usesDeclaredVocab; infer_instance

/-! ## Segmentation service: piece size recalculation
(`segmentation.py` Step 3 excerpt, reproduced in the repository's
implementation summary)

```python
bbox_width = x2 - x1
bbox_height = y2 - y1
tab_depth = 0.15
tab_size = int(min(bbox_width, bbox_height) * tab_depth)

left_ext = tab_size if p['edges']['left'] == 'tab' else 0
right_ext = tab_size if p['edges']['right'] == 'tab' else 0
top_ext = tab_size if p['edges']['top'] == 'tab' else 0
bottom_ext = tab_size if p['edges']['bottom'] == 'tab' else 0

p['width'] = bbox_width + left_ext + right_ext
p['height'] = bbox_height + top_ext + bottom_ext
```

Python's `int()` truncates towards zero, which on the non-negative
product here is the floor. -/

/-- `tab_size = int(min(bbox_width, bbox_height) * 0.15)`. -/
def tab_size (bw bh : ℕ) : ℕ := Nat.floor ((min bw bh : ℚ) * (15/100))

/-- Modelled from the spec's words, for comparison with `tab_size`: the
spec states `tabSize = round(min(baseWidth, baseHeight) * tabDepthRatio)`,
a round-to-nearest, not a truncation. -/
def tabSizeRoundSpec (bw bh : ℕ) : ℕ :=
  (round ((min bw bh : ℚ) * (15/100))).toNat

/-- The recalculated size record of a piece (Step 3 excerpt). -/
structure PieceSize where
  width : ℕ
  height : ℕ
  tabSize : ℕ
  leftExt : ℕ
  rightExt : ℕ
  topExt : ℕ
  bottomExt : ℕ
deriving DecidableEq, Repr

/-- The Step 3 recalculation: one shared `tab_size`, a per-side extension
(`tab_size` on `tab` sides, `0` otherwise), and the final dimensions. -/
def recalcSize (bw bh : ℕ) (e : Edges) : PieceSize :=
  let ts := tab_size bw bh
  let l := if e.left == "tab" then ts else 0
  let r := if e.right == "tab" then ts else 0
  let t := if e.top == "tab" then ts else 0
  let b := if e.bottom == "tab" then ts else 0
  ⟨bw + l + r, bh + t + b, ts, l, r, t, b⟩

/-- The spec's `edgeOffsets.<side>` formula: `tabSize` when the side is
`tab`, else `0` (spec §4.3). -/
def specEdgeOffset (ts : ℕ) (edgeType : String) : ℕ :=
  if edgeType = "tab" then ts else 0

/-! ## Segmentation service: adjacency-based edge assignment
(`segmentation.py` excerpt reproduced in the repository's solution
summary)

```python
for i, p in enumerate(pieces):
    for j, q in enumerate(pieces):
        if i >= j:
            continue
        # Check adjacency and assign complementary edges
        if horizontally_adjacent(p, q):
            p['edges']['right'] = 'tab'
            q['edges']['left'] = 'blank'
        # Similar logic for vertical adjacency
```

The geometric adjacency tests themselves are parameters (`hAdj`,
`vAdj`); the loop only consults the immutable geometry of the two
pieces.  Edge state is a map from piece index to its `Edges` record. -/

/-- Point update of an index-to-edges map. -/
def updateAt (es : ℕ → Edges) (i : ℕ) (f : Edges → Edges) : ℕ → Edges :=
  fun k => if k = i then f (es k) else es k

/-- One iteration of the inner loop body for the (already filtered) pair
`i < j`: a horizontally adjacent pair gets `right := tab` on the earlier
piece and `left := blank` on the later one; a vertically adjacent pair
gets `bottom := tab` / `top := blank` analogously. -/
def assignStep {α : Type*} (pieces : List α) (hAdj vAdj : α → α → Bool)
    (es : ℕ → Edges) (ij : ℕ × ℕ) : ℕ → Edges :=
  match pieces[ij.1]?, pieces[ij.2]? with
  | some p, some q =>
    if hAdj p q then
      updateAt (updateAt es ij.1 fun e => { e with right := "tab" })
        ij.2 fun e => { e with left := "blank" }
    else if vAdj p q then
      updateAt (updateAt es ij.1 fun e => { e with bottom := "tab" })
        ij.2 fun e => { e with top := "blank" }
    else es
  | _, _ => es

/-- The index pairs `(i, j)` with `i < j < n`, in the order the double
loop visits them (`i` outer, `j` inner, `continue` on `i ≥ j`). -/
def pairList (n : ℕ) : List (ℕ × ℕ) :=
  ((List.range n).map fun i =>
    ((List.range n).filter fun j => decide (i < j)).map fun j => (i, j)).flatten

/-- The whole assignment loop: fold the loop body over every index pair,
starting from the pre-existing edge state `init`. -/
def assignEdges {α : Type*} (pieces : List α) (hAdj vAdj : α → α → Bool)
    (init : ℕ → Edges) : ℕ → Edges :=
  (pairList pieces.length).foldl (assignStep pieces hAdj vAdj) init

/-! ## Segmentation service: post-assignment verification
(`segmentation.py` Step 1 excerpt)

```python
# 3) 할당 결과 검증 및 경고 로깅
if not ((e1 == 'tab' and e2 == 'blank') or (e1 == 'blank' and e2 == 'tab')):
    print(f"[WARN] Edge mismatch {p['id']}.right={e1} ≠ {q['id']}.left={e2}")
```

run for every horizontally adjacent pair, with `e1` the earlier piece's
`right` edge and `e2` the later piece's `left` edge.  The loop only
prints; it raises nothing and modifies nothing.  A warning is modelled by
the index pair it reports. -/

/-- The adjacency entries whose facing sides are not complementary — the
pairs for which the verification loop prints a `[WARN]` line. -/
def edgeMismatches (es : List Edges) (adjPairs : List (ℕ × ℕ)) :
    List (ℕ × ℕ) :=
  adjPairs.filter fun ij =>
    match es[ij.1]?, es[ij.2]? with
    | some p, some q =>
      !((p.right == "tab" && q.left == "blank") ||
        (p.right == "blank" && q.left == "tab"))
    | _, _ => false

/-- The verification step as a whole: it reports the warnings and hands
the edge table on unchanged (the source never raises here). -/
def verifyAndEmit (es : List Edges) (adjPairs : List (ℕ × ℕ)) :
    List (ℕ × ℕ) × List Edges :=
  (edgeMismatches es adjPairs, es)

/-! ## Puzzle loading (`loadPuzzle`, `usePuzzleGame.ts` 53–165)

Only the fields consulted by the validation and by the edge handling are
modelled; `Option` encodes an absent (or otherwise falsy) JSON field. -/

/-- An incoming piece record, before conversion. -/
structure RawPiece where
  id : Option String
  imageData : Option String
  image_data : Option String
  edges : Option Edges

/-- The incoming puzzle payload; `pieces = none` models a payload whose
`pieces` field is missing or not an array. -/
structure RawData where
  pieces : Option (List RawPiece)

/-- The converted piece, as far as the claims are concerned. -/
structure LoadedPiece where
  id : String
  imageData : String
  edges : Edges
deriving DecidableEq, Repr

/-- JavaScript truthiness for an optional string: the empty string is
falsy, so `s || t` skips over both an absent and an empty `s`. -/
def jsTruthy (s : Option String) : Option String :=
  match s with
  | some v => if v = "" then none else some v
  | none => none

/-- The per-piece conversion inside `loadPuzzle` (lines 104–130):
`id: piece.id || piece_${index}`,
`imageData: piece.imageData || piece.image_data || ''`,
`edges: piece.edges || {top:'flat', right:'flat', bottom:'flat',
left:'flat'}`. -/
def mapPiece (idx : ℕ) (p : RawPiece) : LoadedPiece :=
  { id := (jsTruthy p.id).getD ("piece_" ++ toString idx)
    imageData := ((jsTruthy p.imageData).or (jsTruthy p.image_data)).getD ""
    edges := p.edges.getD allFlat }

/-- The pieces flagged by the `invalidPieces` filter (lines 94–96):
`!piece.imageData || typeof piece.imageData !== 'string' ||
piece.imageData.trim() === ''`.  The source only counts these and logs a
`console.warn`; it does not throw. -/
def imageDataMissing (p : RawPiece) : Bool :=
  match jsTruthy p.imageData with
  | none => true
  | some s => s.trim == ""

/-- `loadPuzzle`'s validation and conversion (lines 83–130): it throws
exactly when the `pieces` array is absent, not an array, or empty, and
otherwise converts every piece — including those that only earned a
warning from `imageDataMissing`. -/
def loadPuzzle (data : RawData) : Except String (List LoadedPiece) :=
  match data.pieces with
  | none =>
    .error "유효하지 않은 퍼즐 데이터입니다: pieces 배열이 없거나 비어있습니다"
  | some ps =>
    if ps.isEmpty then
      .error "유효하지 않은 퍼즐 데이터입니다: pieces 배열이 없거나 비어있습니다"
    else
      .ok (ps.mapIdx fun i p => mapPiece i p)

end PuzzleCraft

namespace PuzzleCraft

/-- C1: the edge-compatibility predicate accepts exactly a `tab`/`blank`
pair (in either order) and rejects everything else; in particular it is
false whenever either argument is `flat`. -/
theorem isEdgeCompatible_spec (e1 e2 : String) :
    (isEdgeCompatible e1 e2 = true ↔
      (e1 = "tab" ∧ e2 = "blank") ∨ (e1 = "blank" ∧ e2 = "tab")) ∧
    isEdgeCompatible "flat" e2 = false ∧ isEdgeCompatible e1 "flat" = false := by
  refine ⟨?_, ?_, ?_⟩
  · unfold isEdgeCompatible
    by_cases h1 : e1 = "flat" <;> by_cases h2 : e2 = "flat" <;>
      simp [h1, h2]
  · simp [isEdgeCompatible]
  · unfold isEdgeCompatible
    by_cases h1 : e1 = "flat" <;> simp [h1]

/-- C8: for a region with no neighbors (all four edge types `flat`) the
synthesized outline is exactly the four corners of the base rectangle,
with no additional points, and the recalculated final dimensions of an
all-flat piece equal its base dimensions. -/
theorem flat_shape_is_base_rectangle (w h : ℚ) (bw bh : ℕ) :
    generatePuzzleShape w h (some allFlat) = [(0, 0), (w, 0), (w, h), (0, h)] ∧
    (recalcSize bw bh allFlat).width = bw ∧
    (recalcSize bw bh allFlat).height = bh := by
  refine ⟨?_, ?_, ?_⟩
  · simp [generatePuzzleShape, topSeg, rightSeg, bottomSeg, leftSeg, allFlat]
  · simp [recalcSize, allFlat]
  · simp [recalcSize, allFlat]

/-- C4: size conservation — the recalculated width is exactly the base
width plus the left and right offsets, the height analogously, where each
offset is the shared `tabSize` on a `tab` side and `0` otherwise. -/
theorem recalcSize_conservation (bw bh : ℕ) (e : Edges) :
    (recalcSize bw bh e).width =
      bw + specEdgeOffset (recalcSize bw bh e).tabSize e.left
         + specEdgeOffset (recalcSize bw bh e).tabSize e.right ∧
    (recalcSize bw bh e).height =
      bh + specEdgeOffset (recalcSize bw bh e).tabSize e.top
         + specEdgeOffset (recalcSize bw bh e).tabSize e.bottom ∧
    (recalcSize bw bh e).leftExt = specEdgeOffset (tab_size bw bh) e.left ∧
    (recalcSize bw bh e).rightExt = specEdgeOffset (tab_size bw bh) e.right ∧
    (recalcSize bw bh e).topExt = specEdgeOffset (tab_size bw bh) e.top ∧
    (recalcSize bw bh e).bottomExt = specEdgeOffset (tab_size bw bh) e.bottom := by
  simp [recalcSize, specEdgeOffset]

/-- C5 counterexample: at a 10 × 20 region the code's
`tab_size = int(min(10, 20) * 0.15) = int(1.5)` truncates to `1`, while
the claimed `round(1.5)` is `2`. -/
theorem tab_size_truncates_at_ten :
    tab_size 10 20 = 1 ∧ tabSizeRoundSpec 10 20 = 2 ∧
    tab_size 10 20 ≠ tabSizeRoundSpec 10 20 := by
  have h1 : tab_size 10 20 = 1 := by
    unfold tab_size
    rw [Nat.floor_eq_iff] <;> norm_num
  have h2 : tabSizeRoundSpec 10 20 = 2 := by
    unfold tabSizeRoundSpec
    norm_num [round_eq]
    decide
  exact ⟨h1, h2, by rw [h1, h2]; norm_num⟩

/-- C5 (amended): `tab_size` is the *truncation* (floor) of
`min(baseWidth, baseHeight) * 0.15` — equivalently the Nat floor division
`min(bw, bh) * 15 / 100` — shared by all four sides of the piece. -/
theorem tab_size_eq_floor (bw bh : ℕ) :
    tab_size bw bh = min bw bh * 15 / 100 ∧
    (recalcSize bw bh allFlat).tabSize = tab_size bw bh := by
  constructor
  · unfold tab_size
    have h1 : ((min bw bh : ℚ)) * (15/100) = ((min bw bh * 15 : ℕ) : ℚ) / ((100 : ℕ) : ℚ) := by
      push_cast; ring
    rw [h1, Nat.floor_div_nat]
    norm_cast
  · rfl

/-- C3 counterexample: a two-piece batch whose shared border is `tab`
against `tab`.  The verification step reports the mismatch as a warning
but still hands the whole batch on unchanged — it does not abort. -/
theorem verification_warns_but_still_emits :
    verifyAndEmit
        [⟨"flat", "tab", "flat", "flat"⟩, ⟨"flat", "flat", "flat", "tab"⟩]
        [(0, 1)] =
      ([(0, 1)],
       [⟨"flat", "tab", "flat", "flat"⟩, ⟨"flat", "flat", "flat", "tab"⟩]) := by
  decide

/-- C3 (amended): the post-assignment verification pass scans every
adjacency entry and logs a warning for each non-complementary facing
pair, but never aborts: the pieces are emitted downstream unchanged, and
the warning list is empty exactly when every adjacency entry is
complementary. -/
theorem verification_logs_and_passes_through (es : List Edges)
    (adjPairs : List (ℕ × ℕ)) :
    (verifyAndEmit es adjPairs).2 = es ∧
    ((verifyAndEmit es adjPairs).1 = [] ↔
      ∀ ij ∈ adjPairs, ∀ p q, es[ij.1]? = some p → es[ij.2]? = some q →
        (p.right = "tab" ∧ q.left = "blank") ∨
        (p.right = "blank" ∧ q.left = "tab")) := by
  constructor
  · rfl
  · unfold verifyAndEmit edgeMismatches
    rw [List.filter_eq_nil_iff]
    constructor
    · intro hn ij hij p q hp hq
      have h := hn ij hij
      rw [hp, hq] at h
      simp at h
      tauto
    · intro hc ij hij
      rcases h1 : es[ij.1]? with _ | p
      · simp [h1]
      rcases h2 : es[ij.2]? with _ | q
      · simp [h1, h2]
      have h := hc ij hij p q h1 h2
      simp [h1, h2]
      rcases h with ⟨ha, hb⟩ | ⟨ha, hb⟩ <;> simp [ha, hb]

/-- C9 counterexample: a one-piece batch whose piece has no image data
and no edge record loads successfully — the piece is emitted with empty
`imageData` and all-flat edges instead of the load raising an error. -/
theorem loadPuzzle_emits_piece_without_image_data :
    loadPuzzle ⟨some [⟨none, none, none, none⟩]⟩ =
      .ok [{ id := "piece_0", imageData := "", edges := allFlat }] ∧
    imageDataMissing ⟨none, none, none, none⟩ = true := by
  constructor
  · rfl
  · rfl

/-- C9 (amended): `loadPuzzle` raises an error exactly when the `pieces`
array is absent or empty; otherwise it emits one converted piece per
input piece — pieces with missing image data are merely counted for a
warning and still emitted (with `''` as image data), never dropped and
never fatal. -/
theorem loadPuzzle_error_iff_no_pieces (data : RawData) :
    ((∃ msg, loadPuzzle data = .error msg) ↔
      (data.pieces = none ∨ data.pieces = some [])) ∧
    (∀ ps, data.pieces = some ps → ps ≠ [] →
      loadPuzzle data = .ok (ps.mapIdx fun i p => mapPiece i p) ∧
      (ps.mapIdx fun i p => mapPiece i p).length = ps.length) := by
  constructor
  · rcases hd : data.pieces with _ | ps
    · simp [loadPuzzle, hd]
    · rcases ps with _ | ⟨p, ps'⟩
      · simp [loadPuzzle, hd]
      · simp [loadPuzzle, hd]
  · intro ps hps hne
    rcases data with ⟨pieces⟩
    cases hps
    constructor
    · simp [loadPuzzle, List.isEmpty_iff, hne]
    · simp

/-- C9 witness for the amended theorem, at the counterexample batch. -/
theorem loadPuzzle_error_iff_no_pieces_witness :
    loadPuzzle ⟨some [⟨none, none, none, none⟩]⟩ =
      .ok ([⟨none, none, none, none⟩].mapIdx fun i p => mapPiece i p) :=
  ((loadPuzzle_error_iff_no_pieces ⟨some [⟨none, none, none, none⟩]⟩).2
    [⟨none, none, none, none⟩] rfl (by simp)).1

/-- C7: missing edge data defaults every side to `flat` at both
boundaries — `loadPuzzle` maps a piece with no `edges` record to the
all-`flat` record, and `generatePuzzleShape` treats an absent `edges`
argument exactly as the all-`flat` record (so the outline is the plain
base rectangle). -/
theorem missing_edges_default_to_flat (idx : ℕ) (p : RawPiece)
    (hp : p.edges = none) (w h : ℚ) :
    (mapPiece idx p).edges = allFlat ∧
    generatePuzzleShape w h none = generatePuzzleShape w h (some allFlat) ∧
    generatePuzzleShape w h none = [(0, 0), (w, 0), (w, h), (0, h)] := by
  refine ⟨?_, rfl, ?_⟩
  · simp [mapPiece, hp]
  · simp [generatePuzzleShape, topSeg, rightSeg, bottomSeg, leftSeg, allFlat]

/-- C7 witness: the default applies to a concrete edge-less raw piece and
a concrete 100 × 80 region. -/
theorem missing_edges_default_to_flat_witness :
    (mapPiece 0 ⟨some "p0", some "img", none, none⟩).edges = allFlat ∧
    generatePuzzleShape 100 80 none = generatePuzzleShape 100 80 (some allFlat) ∧
    generatePuzzleShape 100 80 none = [(0, 0), (100, 0), (100, 80), (0, 80)] :=
  missing_edges_default_to_flat 0 ⟨some "p0", some "img", none, none⟩ rfl 100 80

/-- Any pair drawn from the declared TypeScript vocabulary
`{'flat','knob','hole'}` fails the `tab`/`blank` compatibility test. -/
theorem declared_pair_incompatible (e1 e2 : String)
    (h1 : e1 ∈ declaredEdgeTypes) (h2 : e2 ∈ declaredEdgeTypes) :
    isEdgeCompatible e1 e2 = false := by
  simp only [declaredEdgeTypes, List.mem_cons, List.not_mem_nil, or_false,
    List.mem_singleton] at h1 h2
  rcases h1 with rfl | rfl | rfl <;> rcases h2 with rfl | rfl | rfl <;> rfl

/-- `checkEdgeCompatibility` rejects any two pieces whose edge records
stay inside the declared vocabulary, whatever their geometry. -/
theorem checkEdgeCompatibility_declared_false (p1 p2 : Piece) (e1 e2 : Edges)
    (h1 : usesDeclaredVocab e1) (h2 : usesDeclaredVocab e2) :
    checkEdgeCompatibility p1 p2 e1 e2 = false := by
  obtain ⟨h1t, h1r, h1b, h1l⟩ := h1
  obtain ⟨h2t, h2r, h2b, h2l⟩ := h2
  unfold checkEdgeCompatibility
  dsimp only
  split_ifs <;>
    first
      | rfl
      | exact declared_pair_incompatible _ _ h1r h2l
      | exact declared_pair_incompatible _ _ h1l h2r
      | exact declared_pair_incompatible _ _ h1b h2t
      | exact declared_pair_incompatible _ _ h1t h2b

/-- C10: the declared edge vocabulary and the connection logic are
disjoint.  Every pair from `{'flat','knob','hole'}` is rejected by
`isEdgeCompatible`; consequently `canConnect` can never join two pieces
whose edge records use the declared vocabulary — even though
`generatePuzzleShape` renders `'knob'`/`'hole'` exactly as it renders
`'tab'`/`'blank'`. -/
theorem declared_vocab_never_connects :
    (∀ e1 ∈ declaredEdgeTypes, ∀ e2 ∈ declaredEdgeTypes,
      isEdgeCompatible e1 e2 = false) ∧
    (∀ (p1 p2 : Piece) (fb : Bool) (e1 e2 : Edges),
      p1.edges = some e1 → p2.edges = some e2 →
      usesDeclaredVocab e1 → usesDeclaredVocab e2 →
      canConnect p1 p2 fb = false) ∧
    (∀ w h : ℚ,
      generatePuzzleShape w h (some ⟨"knob", "knob", "knob", "knob"⟩) =
        generatePuzzleShape w h (some ⟨"tab", "tab", "tab", "tab"⟩) ∧
      generatePuzzleShape w h (some ⟨"hole", "hole", "hole", "hole"⟩) =
        generatePuzzleShape w h (some ⟨"blank", "blank", "blank", "blank"⟩)) := by
  refine ⟨fun e1 h1 e2 h2 => declared_pair_incompatible e1 e2 h1 h2, ?_, ?_⟩
  · intro p1 p2 fb e1 e2 hp1 hp2 h1 h2
    unfold canConnect
    rw [hp1, hp2]
    dsimp only
    split_ifs
    · rfl
    · exact checkEdgeCompatibility_declared_false p1 p2 e1 e2 h1 h2
  · intro w h
    constructor <;>
      simp [generatePuzzleShape, topSeg, rightSeg, bottomSeg, leftSeg]

/-- C10 witness: two overlapping all-`knob` pieces (distance 10 ≤ 50,
facing right-to-left within tolerance) still fail to connect. -/
theorem declared_vocab_never_connects_witness :
    isEdgeCompatible "flat" "knob" = false ∧
    canConnect
      ⟨(0, 0), 10, 10, some ⟨"knob", "knob", "knob", "knob"⟩⟩
      ⟨(10, 0), 10, 10, some ⟨"knob", "knob", "knob", "knob"⟩⟩ true = false ∧
    generatePuzzleShape 100 80 (some ⟨"knob", "knob", "knob", "knob"⟩) =
      generatePuzzleShape 100 80 (some ⟨"tab", "tab", "tab", "tab"⟩) :=
  ⟨declared_vocab_never_connects.1 "flat" (by decide) "knob" (by decide),
   declared_vocab_never_connects.2.1
     ⟨(0, 0), 10, 10, some ⟨"knob", "knob", "knob", "knob"⟩⟩
     ⟨(10, 0), 10, 10, some ⟨"knob", "knob", "knob", "knob"⟩⟩ true
     ⟨"knob", "knob", "knob", "knob"⟩ ⟨"knob", "knob", "knob", "knob"⟩
     rfl rfl (by decide) (by decide),
   (declared_vocab_never_connects.2.2 100 80).1⟩

/-- A single loop iteration either leaves a piece's `right` edge alone or
sets it to `tab` — `tab` is the only value the loop ever writes into a
`right` slot. -/
theorem assignStep_right_cases {α : Type*} (pieces : List α)
    (hAdj vAdj : α → α → Bool) (es : ℕ → Edges) (ij : ℕ × ℕ) (k : ℕ) :
    (assignStep pieces hAdj vAdj es ij k).right = (es k).right ∨
    (assignStep pieces hAdj vAdj es ij k).right = "tab" := by
  unfold assignStep
  rcases pieces[ij.1]? with _ | p
  · exact Or.inl rfl
  rcases pieces[ij.2]? with _ | q
  · exact Or.inl rfl
  dsimp only
  split_ifs
  · by_cases hkj : k = ij.2 <;> by_cases hki : k = ij.1 <;>
      by_cases hij : ij.1 = ij.2 <;> simp_all [updateAt]
  · by_cases hkj : k = ij.2 <;> by_cases hki : k = ij.1 <;>
      by_cases hij : ij.1 = ij.2 <;> simp_all [updateAt]
  · exact Or.inl rfl

/-- A single loop iteration either leaves a piece's `left` edge alone or
sets it to `blank`. -/
theorem assignStep_left_cases {α : Type*} (pieces : List α)
    (hAdj vAdj : α → α → Bool) (es : ℕ → Edges) (ij : ℕ × ℕ) (k : ℕ) :
    (assignStep pieces hAdj vAdj es ij k).left = (es k).left ∨
    (assignStep pieces hAdj vAdj es ij k).left = "blank" := by
  unfold assignStep
  rcases pieces[ij.1]? with _ | p
  · exact Or.inl rfl
  rcases pieces[ij.2]? with _ | q
  · exact Or.inl rfl
  dsimp only
  split_ifs
  · by_cases hkj : k = ij.2 <;> by_cases hki : k = ij.1 <;>
      by_cases hij : ij.1 = ij.2 <;> simp_all [updateAt]
  · by_cases hkj : k = ij.2 <;> by_cases hki : k = ij.1 <;>
      by_cases hij : ij.1 = ij.2 <;> simp_all [updateAt]
  · exact Or.inl rfl

/-- Once a `right` slot holds `tab`, the rest of the loop keeps it. -/
theorem foldl_keeps_right_tab {α : Type*} (pieces : List α)
    (hAdj vAdj : α → α → Bool) (prs : List (ℕ × ℕ)) (es : ℕ → Edges)
    (k : ℕ) (h : (es k).right = "tab") :
    ((prs.foldl (assignStep pieces hAdj vAdj) es) k).right = "tab" := by
  induction prs generalizing es with
  | nil => exact h
  | cons pr prs ih =>
    apply ih
    rcases assignStep_right_cases pieces hAdj vAdj es pr k with h' | h'
    · rw [h']; exact h
    · exact h'

/-- Once a `left` slot holds `blank`, the rest of the loop keeps it. -/
theorem foldl_keeps_left_blank {α : Type*} (pieces : List α)
    (hAdj vAdj : α → α → Bool) (prs : List (ℕ × ℕ)) (es : ℕ → Edges)
    (k : ℕ) (h : (es k).left = "blank") :
    ((prs.foldl (assignStep pieces hAdj vAdj) es) k).left = "blank" := by
  induction prs generalizing es with
  | nil => exact h
  | cons pr prs ih =>
    apply ih
    rcases assignStep_left_cases pieces hAdj vAdj es pr k with h' | h'
    · rw [h']; exact h
    · exact h'

/-- Processing a horizontally adjacent pair `(i, j)` writes `tab` into
`i`'s right slot and `blank` into `j`'s left slot. -/
theorem assignStep_establishes {α : Type*} (pieces : List α)
    (hAdj vAdj : α → α → Bool) (es : ℕ → Edges) (i j : ℕ) (p q : α)
    (hij : i ≠ j) (hp : pieces[i]? = some p) (hq : pieces[j]? = some q)
    (hA : hAdj p q = true) :
    ((assignStep pieces hAdj vAdj es (i, j)) i).right = "tab" ∧
    ((assignStep pieces hAdj vAdj es (i, j)) j).left = "blank" := by
  unfold assignStep
  rw [hp, hq]
  dsimp only
  rw [if_pos hA]
  constructor
  · simp [updateAt, hij, Ne.symm hij]
  · simp [updateAt]

/-- The pair `(i, j)` with `i < j < n` is visited by the double loop. -/
theorem mem_pairList (n i j : ℕ) (hij : i < j) (hj : j < n) :
    (i, j) ∈ pairList n := by
  unfold pairList
  refine List.mem_flatten.mpr
    ⟨((List.range n).filter fun j' => decide (i < j')).map fun j' => (i, j'),
     ?_, ?_⟩
  · exact List.mem_map.mpr ⟨i, List.mem_range.mpr (lt_trans hij hj), rfl⟩
  · exact List.mem_map.mpr
      ⟨j, List.mem_filter.mpr ⟨List.mem_range.mpr hj, by simpa using hij⟩, rfl⟩

/-- C6: the adjacency-based edge assignment is a pure function of the
pair's identities — for every horizontally adjacent pair the
earlier-indexed piece's `right` side ends as `tab` and the later-indexed
piece's `left` side as `blank`, whatever the rest of the region table,
the initial edge state, or the adjacency predicates do.  In this pure
embedding re-running `assignEdges` on the same inputs is literally the
same value, so determinism of two runs is immediate; this theorem pins
down the content behind it: the choice on each shared border depends only
on the pair's indices. -/
theorem assignEdges_pure_pair_rule {α : Type*} (pieces : List α)
    (hAdj vAdj : α → α → Bool) (init : ℕ → Edges) (i j : ℕ) (p q : α)
    (hij : i < j) (hp : pieces[i]? = some p) (hq : pieces[j]? = some q)
    (hA : hAdj p q = true) :
    (assignEdges pieces hAdj vAdj init i).right = "tab" ∧
    (assignEdges pieces hAdj vAdj init j).left = "blank" := by
  have hj : j < pieces.length := by
    by_contra hlen
    push_neg at hlen
    rw [List.getElem?_eq_none hlen] at hq
    exact Option.noConfusion hq
  obtain ⟨l1, l2, hsplit⟩ :=
    List.append_of_mem (mem_pairList pieces.length i j hij hj)
  unfold assignEdges
  rw [hsplit, List.foldl_append, List.foldl_cons]
  have hest := assignStep_establishes pieces hAdj vAdj
    (l1.foldl (assignStep pieces hAdj vAdj) init) i j p q
    (Nat.ne_of_lt hij) hp hq hA
  exact ⟨foldl_keeps_right_tab pieces hAdj vAdj l2 _ i hest.1,
         foldl_keeps_left_blank pieces hAdj vAdj l2 _ j hest.2⟩

/-- C6 witness: two regions where region 0 is horizontally adjacent to
region 1 — region 0's right side ends `tab`, region 1's left side ends
`blank`, starting from the all-flat state. -/
theorem assignEdges_pure_pair_rule_witness :
    (assignEdges [0, 1] (fun a b => decide (a + 1 = b)) (fun _ _ => false)
        (fun _ => allFlat) 0).right = "tab" ∧
    (assignEdges [0, 1] (fun a b => decide (a + 1 = b)) (fun _ _ => false)
        (fun _ => allFlat) 1).left = "blank" :=
  assignEdges_pure_pair_rule [0, 1] (fun a b => decide (a + 1 = b))
    (fun _ _ => false) (fun _ => allFlat) 0 1 0 1 (by decide) rfl rfl (by decide)

/-- The left offset is never negative on a non-negative width. -/
theorem offLeft_nonneg (w : ℚ) (hw : 0 ≤ w) (e : Edges) : 0 ≤ offLeft w e := by
  unfold offLeft
  split_ifs <;> linarith

/-- The right offset is never negative on a non-negative width. -/
theorem offRight_nonneg (w : ℚ) (hw : 0 ≤ w) (e : Edges) : 0 ≤ offRight w e := by
  unfold offRight
  split_ifs <;> linarith

/-- The top offset is never negative on a non-negative height. -/
theorem offTop_nonneg (h : ℚ) (hh : 0 ≤ h) (e : Edges) : 0 ≤ offTop h e := by
  unfold offTop
  split_ifs <;> linarith

/-- The bottom offset is never negative on a non-negative height. -/
theorem offBottom_nonneg (h : ℚ) (hh : 0 ≤ h) (e : Edges) : 0 ≤ offBottom h e := by
  unfold offBottom
  split_ifs <;> linarith

/-- Every vertex the top edge contributes stays between the left/right
offsets horizontally and between the top/bottom offsets vertically. -/
theorem topSeg_in_bounds (w h : ℚ) (hw : 0 ≤ w) (hh : 0 ≤ h) (e : Edges)
    (p : ℚ × ℚ) (hp : p ∈ topSeg w h e) :
    -(offLeft w e) ≤ p.1 ∧ p.1 ≤ w + offRight w e ∧
    -(offTop h e) ≤ p.2 ∧ p.2 ≤ h + offBottom h e := by
  have hL := offLeft_nonneg w hw e
  have hR := offRight_nonneg w hw e
  have hB := offBottom_nonneg h hh e
  unfold topSeg at hp
  split_ifs at hp with h1 h2
  · have hOT : offTop h e = h * (15/100) := by unfold offTop; rw [if_pos h1]
    simp only [List.mem_cons, List.not_mem_nil, or_false] at hp
    rcases hp with rfl | rfl | rfl | rfl <;> dsimp only <;>
      refine ⟨by linarith, by linarith, by linarith, by linarith⟩
  · have hOT : offTop h e = 0 := by unfold offTop; rw [if_neg h1]
    simp only [List.mem_cons, List.not_mem_nil, or_false] at hp
    rcases hp with rfl | rfl | rfl | rfl <;> dsimp only <;>
      refine ⟨by linarith, by linarith, by linarith, by linarith⟩
  · simp at hp

/-- Every vertex the right edge contributes stays inside the same box. -/
theorem rightSeg_in_bounds (w h : ℚ) (hw : 0 ≤ w) (hh : 0 ≤ h) (e : Edges)
    (p : ℚ × ℚ) (hp : p ∈ rightSeg w h e) :
    -(offLeft w e) ≤ p.1 ∧ p.1 ≤ w + offRight w e ∧
    -(offTop h e) ≤ p.2 ∧ p.2 ≤ h + offBottom h e := by
  have hL := offLeft_nonneg w hw e
  have hT := offTop_nonneg h hh e
  have hB := offBottom_nonneg h hh e
  unfold rightSeg at hp
  split_ifs at hp with h1 h2
  · have hOR : offRight w e = w * (15/100) := by unfold offRight; rw [if_pos h1]
    simp only [List.mem_cons, List.not_mem_nil, or_false] at hp
    rcases hp with rfl | rfl | rfl | rfl <;> dsimp only <;>
      refine ⟨by linarith, by linarith, by linarith, by linarith⟩
  · have hOR : offRight w e = 0 := by unfold offRight; rw [if_neg h1]
    simp only [List.mem_cons, List.not_mem_nil, or_false] at hp
    rcases hp with rfl | rfl | rfl | rfl <;> dsimp only <;>
      refine ⟨by linarith, by linarith, by linarith, by linarith⟩
  · simp at hp

/-- Every vertex the bottom edge contributes stays inside the same box. -/
theorem bottomSeg_in_bounds (w h : ℚ) (hw : 0 ≤ w) (hh : 0 ≤ h) (e : Edges)
    (p : ℚ × ℚ) (hp : p ∈ bottomSeg w h e) :
    -(offLeft w e) ≤ p.1 ∧ p.1 ≤ w + offRight w e ∧
    -(offTop h e) ≤ p.2 ∧ p.2 ≤ h + offBottom h e := by
  have hL := offLeft_nonneg w hw e
  have hR := offRight_nonneg w hw e
  have hT := offTop_nonneg h hh e
  unfold bottomSeg at hp
  split_ifs at hp with h1 h2
  · have hOB : offBottom h e = h * (15/100) := by unfold offBottom; rw [if_pos h1]
    simp only [List.mem_cons, List.not_mem_nil, or_false] at hp
    rcases hp with rfl | rfl | rfl | rfl <;> dsimp only <;>
      refine ⟨by linarith, by linarith, by linarith, by linarith⟩
  · have hOB : offBottom h e = 0 := by unfold offBottom; rw [if_neg h1]
    simp only [List.mem_cons, List.not_mem_nil, or_false] at hp
    rcases hp with rfl | rfl | rfl | rfl <;> dsimp only <;>
      refine ⟨by linarith, by linarith, by linarith, by linarith⟩
  · simp at hp

/-- Every vertex the left edge contributes stays inside the same box. -/
theorem leftSeg_in_bounds (w h : ℚ) (hw : 0 ≤ w) (hh : 0 ≤ h) (e : Edges)
    (p : ℚ × ℚ) (hp : p ∈ leftSeg w h e) :
    -(offLeft w e) ≤ p.1 ∧ p.1 ≤ w + offRight w e ∧
    -(offTop h e) ≤ p.2 ∧ p.2 ≤ h + offBottom h e := by
  have hR := offRight_nonneg w hw e
  have hT := offTop_nonneg h hh e
  have hB := offBottom_nonneg h hh e
  unfold leftSeg at hp
  split_ifs at hp with h1 h2
  · have hOL : offLeft w e = w * (15/100) := by unfold offLeft; rw [if_pos h1]
    simp only [List.mem_cons, List.not_mem_nil, or_false] at hp
    rcases hp with rfl | rfl | rfl | rfl <;> dsimp only <;>
      refine ⟨by linarith, by linarith, by linarith, by linarith⟩
  · have hOL : offLeft w e = 0 := by unfold offLeft; rw [if_neg h1]
    simp only [List.mem_cons, List.not_mem_nil, or_false] at hp
    rcases hp with rfl | rfl | rfl | rfl <;> dsimp only <;>
      refine ⟨by linarith, by linarith, by linarith, by linarith⟩
  · simp at hp

/-- C2 counterexample: with a `tab` on top, the outline of a 100 × 100
piece contains the vertex `(30, −15)`, whose y-coordinate is negative —
the raw outline is not contained in `[0, finalWidth] × [0, finalHeight]`,
because the base rectangle sits at the origin, not at the
`(edgeOffsets.left, edgeOffsets.top)` offset the claim assumes. -/
theorem shape_vertex_outside_claimed_canvas :
    ((30 : ℚ), (-15 : ℚ)) ∈
      generatePuzzleShape 100 100 (some ⟨"tab", "flat", "flat", "flat"⟩) ∧
    (-15 : ℚ) < 0 := by
  constructor
  · simp [generatePuzzleShape, topSeg, rightSeg, bottomSeg, leftSeg]
    norm_num
  · norm_num

/-- C2 (amended): the outline produced by `generatePuzzleShape` is
expressible in a `finalWidth × finalHeight` canvas only after translating
by `(edgeOffsets.left, edgeOffsets.top)`: for every vertex `p`, the
shifted point `(p.x + offLeft, p.y + offTop)` lies within
`[0, width + offLeft + offRight] × [0, height + offTop + offBottom]`,
where each offset is `0.15` times the corresponding base dimension on
`tab`/`knob` sides and `0` otherwise.  The base rectangle itself sits at
the origin of the outline's coordinate system, not at the offset. -/
theorem generatePuzzleShape_in_final_canvas (w h : ℚ) (hw : 0 ≤ w)
    (hh : 0 ≤ h) (edges : Option Edges) (p : ℚ × ℚ)
    (hp : p ∈ generatePuzzleShape w h edges) :
    0 ≤ p.1 + offLeft w (edges.getD allFlat) ∧
    p.1 + offLeft w (edges.getD allFlat) ≤
      w + offLeft w (edges.getD allFlat) + offRight w (edges.getD allFlat) ∧
    0 ≤ p.2 + offTop h (edges.getD allFlat) ∧
    p.2 + offTop h (edges.getD allFlat) ≤
      h + offTop h (edges.getD allFlat) + offBottom h (edges.getD allFlat) := by
  have hL := offLeft_nonneg w hw (edges.getD allFlat)
  have hR := offRight_nonneg w hw (edges.getD allFlat)
  have hT := offTop_nonneg h hh (edges.getD allFlat)
  have hB := offBottom_nonneg h hh (edges.getD allFlat)
  simp only [generatePuzzleShape, List.append_assoc, List.mem_append,
    List.mem_cons, List.not_mem_nil, or_false] at hp
  rcases hp with rfl | hp | rfl | hp | rfl | hp | rfl | hp
  · dsimp only
    exact ⟨by linarith, by linarith, by linarith, by linarith⟩
  · obtain ⟨a, b, c, d⟩ := topSeg_in_bounds w h hw hh _ p hp
    exact ⟨by linarith, by linarith, by linarith, by linarith⟩
  · dsimp only
    exact ⟨by linarith, by linarith, by linarith, by linarith⟩
  · obtain ⟨a, b, c, d⟩ := rightSeg_in_bounds w h hw hh _ p hp
    exact ⟨by linarith, by linarith, by linarith, by linarith⟩
  · dsimp only
    exact ⟨by linarith, by linarith, by linarith, by linarith⟩
  · obtain ⟨a, b, c, d⟩ := bottomSeg_in_bounds w h hw hh _ p hp
    exact ⟨by linarith, by linarith, by linarith, by linarith⟩
  · dsimp only
    exact ⟨by linarith, by linarith, by linarith, by linarith⟩
  · obtain ⟨a, b, c, d⟩ := leftSeg_in_bounds w h hw hh _ p hp
    exact ⟨by linarith, by linarith, by linarith, by linarith⟩

/-- C2 witness: the escaping vertex `(30, −15)` of the 100 × 100
top-`tab` piece does fit once shifted by the top offset. -/
theorem generatePuzzleShape_in_final_canvas_witness :
    0 ≤ (30 : ℚ) + offLeft 100 ⟨"tab", "flat", "flat", "flat"⟩ ∧
    (30 : ℚ) + offLeft 100 ⟨"tab", "flat", "flat", "flat"⟩ ≤
      100 + offLeft 100 ⟨"tab", "flat", "flat", "flat"⟩ +
        offRight 100 ⟨"tab", "flat", "flat", "flat"⟩ ∧
    0 ≤ (-15 : ℚ) + offTop 100 ⟨"tab", "flat", "flat", "flat"⟩ ∧
    (-15 : ℚ) + offTop 100 ⟨"tab", "flat", "flat", "flat"⟩ ≤
      100 + offTop 100 ⟨"tab", "flat", "flat", "flat"⟩ +
        offBottom 100 ⟨"tab", "flat", "flat", "flat"⟩ :=
  generatePuzzleShape_in_final_canvas 100 100 (by norm_num) (by norm_num)
    (some ⟨"tab", "flat", "flat", "flat"⟩) (30, -15)
    (by simp [generatePuzzleShape, topSeg, rightSeg, bottomSeg, leftSeg]; norm_num)

end PuzzleCraft
